import Mathlib

/-
Verification development for the MDP-Image-Rec planning pipeline.

The definitions below are a shallow embedding of the Python sources under
src/app (constants.py, grid/obstacle.py, grid/grid.py, commands/*.py,
path_finding/*.py, services/pathing_algo.py).  Coordinates are integers in
the source (obstacle centres, robot poses, turn deltas are all integral),
so positions are embedded with Int coordinates.  The files
misc/direction.py and misc/type_of_turn.py are not present in the source
tree; the Direction and TypeOfTurn enumerations are modelled from the
specification, which pins their members and degree values.
-/

namespace MDP

/-- Modelled from the spec: misc/direction.py is missing from the source
tree.  The spec fixes the four cardinal directions, their names as used by
the rest of the code (TOP, BOTTOM, LEFT, RIGHT) and their degree values
E=0, N=90, S=-90, W=180. -/
inductive Direction where
  | TOP
  | BOTTOM
  | LEFT
  | RIGHT
deriving DecidableEq, Repr

/-- Modelled from the spec: the degree value of each direction member
(N=90, S=-90, E=0, W=180), matching the direction_map of
services/pathing_algo.py. -/
def Direction.value : Direction → Int
  | .TOP => 90
  | .BOTTOM => -90
  | .LEFT => 180
  | .RIGHT => 0

/-- Modelled from the spec: misc/type_of_turn.py is missing from the source
tree.  The three turn magnitudes named by commands/turn_command.py. -/
inductive TypeOfTurn where
  | SMALL
  | MEDIUM
  | LARGE
deriving DecidableEq, Repr

/-- Position of misc/positioning.py: x, y coordinates with an optional
direction. -/
structure Position where
  x : Int
  y : Int
  direction : Option Direction := none
deriving DecidableEq, Repr

/-- RobotPosition of misc/positioning.py: a position whose direction is
always set (the angle field mirrors direction.value and is omitted). -/
structure RobotPosition where
  x : Int
  y : Int
  direction : Direction
deriving DecidableEq, Repr

/-- Conversion of a RobotPosition to a plain Position (in the source,
RobotPosition is a subclass of Position). -/
def RobotPosition.pos (r : RobotPosition) : Position :=
  { x := r.x, y := r.y, direction := some r.direction }

/-- Truthiness of a Python int: zero is falsy, everything else truthy.
Used where the source passes the integer rerun counter as a flag. -/
def pyTruthy (n : Nat) : Bool := n != 0

/- Constants of constants.py used by the planning pipeline. -/

def GRID_LENGTH : Int := 200

def GRID_CELL_LENGTH : Int := 10

def OBSTACLE_LENGTH : Int := 10

def OBSTACLE_SAFETY_WIDTH : Int := 10

def OBSTACLE_SAFETY_MULTIPLIER : Int := 3

def OBSTACLE_SAFETY_OFFSET : Int := OBSTACLE_SAFETY_WIDTH * OBSTACLE_SAFETY_MULTIPLIER

/-- Obstacle of grid/obstacle.py: a centre position with a facing
direction and an index.  The constructor asserts that the centre
coordinates are multiples of 10; that precondition appears as a hypothesis
of the theorems that need it. -/
structure Obstacle where
  x : Int
  y : Int
  direction : Direction
  index : Int
deriving DecidableEq, Repr

/-- Obstacle._is_position_in_safety_zone: a single point is inside the
safety zone when both coordinate differences are strictly below
OBSTACLE_SAFETY_WIDTH + 1. -/
def Obstacle.isPositionInSafetyZone (o : Obstacle) (cx cy : Int) : Bool :=
  ((o.y - cy).natAbs : Int) < OBSTACLE_SAFETY_WIDTH + 1 &&
    ((o.x - cx).natAbs : Int) < OBSTACLE_SAFETY_WIDTH + 1

/-- Obstacle._get_positions_to_check: the list of points probed around the
queried position.  Mode 1 keeps the cross pattern, mode 2 the single cell,
any other mode (grid/grid.py passes False, which equals neither 1 nor 2)
keeps the full 3x3 block. -/
def Obstacle.positionsToCheck (p : Position) (collisionMode : Nat) : List (Int × Int) :=
  let base : List (Int × Int) :=
    [ (p.x - GRID_CELL_LENGTH, p.y - GRID_CELL_LENGTH),
      (p.x - GRID_CELL_LENGTH, p.y),
      (p.x - GRID_CELL_LENGTH, p.y + GRID_CELL_LENGTH),
      (p.x, p.y - GRID_CELL_LENGTH),
      (p.x, p.y),
      (p.x, p.y + GRID_CELL_LENGTH),
      (p.x + GRID_CELL_LENGTH, p.y - GRID_CELL_LENGTH),
      (p.x + GRID_CELL_LENGTH, p.y),
      (p.x + GRID_CELL_LENGTH, p.y + GRID_CELL_LENGTH) ]
  if collisionMode = 1 then
    base.filter (fun q => p.x == q.1 || p.y == q.2)
  else if collisionMode = 2 then
    [(p.x, p.y)]
  else
    base

/-- Obstacle.check_within_boundary: true when any probed point lies in the
safety zone. -/
def Obstacle.checkWithinBoundary (o : Obstacle) (p : Position) (collisionMode : Nat) : Bool :=
  (Obstacle.positionsToCheck p collisionMode).any
    (fun q => o.isPositionInSafetyZone q.1 q.2)

/-- Grid of grid/grid.py, reduced to the obstacle list it owns (the cell
matrices are derived data not consulted by the validity predicate). -/
structure Grid where
  obstacles : List Obstacle
deriving DecidableEq, Repr

/-- Grid._is_position_in_obstacle: the position is probed against every
obstacle with collision mode False (i.e. the full 3x3 block). -/
def Grid.isPositionInObstacle (g : Grid) (p : Position) : Bool :=
  g.obstacles.any (fun o => o.checkWithinBoundary p 0)

/-- Grid._is_within_boundaries: both coordinates must lie in
[GRID_CELL_LENGTH, GRID_LENGTH - GRID_CELL_LENGTH). -/
def Grid.isWithinBoundaries (_g : Grid) (p : Position) : Bool :=
  GRID_CELL_LENGTH ≤ p.x && p.x < GRID_LENGTH - GRID_CELL_LENGTH &&
    GRID_CELL_LENGTH ≤ p.y && p.y < GRID_LENGTH - GRID_CELL_LENGTH

/-- Grid._is_valid_position: false on obstacle collision (unless ignored),
then the boundary test. -/
def Grid.isValidPosition (g : Grid) (p : Position) (ignoreObstacles : Bool) : Bool :=
  if !ignoreObstacles && g.isPositionInObstacle p then
    false
  else
    g.isWithinBoundaries p

/-- Grid.check_valid_position: the public name of the validity predicate;
its yolo argument is the ignore_obstacles flag. -/
def Grid.checkValidPosition (g : Grid) (p : Position) (yolo : Bool) : Bool :=
  g.isValidPosition p yolo

/- Target pose computation of grid/obstacle.py. -/

/-- Obstacle._get_corner_type, encoded by the corner name strings of the
source. -/
inductive CornerType where
  | bottomLeft
  | topLeft
  | topRight
  | bottomRight
deriving DecidableEq, Repr

/-- Obstacle._get_edge_type, encoded by the edge name strings of the
source. -/
inductive EdgeType where
  | bottom
  | top
  | left
  | right
deriving DecidableEq, Repr

/-- Obstacle._get_corner_type: the four exact corner centres. -/
def Obstacle.cornerType (o : Obstacle) : Option CornerType :=
  if o.x = 0 ∧ o.y = 0 then some .bottomLeft
  else if o.x = 0 ∧ o.y = 190 then some .topLeft
  else if o.x = 190 ∧ o.y = 190 then some .topRight
  else if o.x = 190 ∧ o.y = 0 then some .bottomRight
  else none

/-- Obstacle._get_edge_type: tested in source order y=0, y=190, x=0,
x=190. -/
def Obstacle.edgeType (o : Obstacle) : Option EdgeType :=
  if o.y = 0 then some .bottom
  else if o.y = 190 then some .top
  else if o.x = 0 then some .left
  else if o.x = 190 then some .right
  else none

/-- Obstacle._get_standard_target_position: the robot stands off by
OBSTACLE_SAFETY_OFFSET + OBSTACLE_LENGTH on the facing side, heading back
at the obstacle. -/
def Obstacle.standardTargetPosition (o : Obstacle) : RobotPosition :=
  let offset := OBSTACLE_SAFETY_OFFSET + OBSTACLE_LENGTH
  match o.direction with
  | .TOP => { x := o.x, y := o.y + offset, direction := .BOTTOM }
  | .BOTTOM => { x := o.x, y := o.y - offset, direction := .TOP }
  | .LEFT => { x := o.x - offset, y := o.y, direction := .RIGHT }
  | .RIGHT => { x := o.x + offset, y := o.y, direction := .LEFT }

/-- Obstacle._get_corner_target_position: the corner adjustment table,
keyed by corner and obstacle direction; missing pairs fall back to the
standard target. -/
def Obstacle.cornerAdjustment (c : CornerType) (d : Direction) : Option (Int × Int) :=
  match c, d with
  | .bottomLeft, .TOP => some (10, 0)
  | .bottomLeft, .RIGHT => some (0, 10)
  | .topLeft, .BOTTOM => some (10, 0)
  | .topLeft, .RIGHT => some (0, -10)
  | .topRight, .BOTTOM => some (-10, 0)
  | .topRight, .LEFT => some (0, -10)
  | .bottomRight, .TOP => some (-10, 0)
  | .bottomRight, .LEFT => some (0, 10)
  | _, _ => none

/-- Obstacle._get_edge_target_position: the edge adjustment table, keyed
by edge and obstacle direction; missing pairs fall back to the standard
target. -/
def Obstacle.edgeAdjustment (e : EdgeType) (d : Direction) : Option (Int × Int) :=
  match e, d with
  | .bottom, .LEFT => some (0, 10)
  | .bottom, .RIGHT => some (0, 10)
  | .top, .LEFT => some (0, -10)
  | .top, .RIGHT => some (0, -10)
  | .left, .TOP => some (10, 0)
  | .left, .BOTTOM => some (10, 0)
  | .right, .TOP => some (-10, 0)
  | .right, .BOTTOM => some (-10, 0)
  | _, _ => none

/-- Addition of an adjustment to a base robot target. -/
def RobotPosition.adjust (r : RobotPosition) (a : Int × Int) : RobotPosition :=
  { x := r.x + a.1, y := r.y + a.2, direction := r.direction }

/-- Obstacle._get_corner_target_position. -/
def Obstacle.cornerTargetPosition (o : Obstacle) (c : CornerType) : RobotPosition :=
  let base := o.standardTargetPosition
  match Obstacle.cornerAdjustment c o.direction with
  | some a => base.adjust a
  | none => base

/-- Obstacle._get_edge_target_position. -/
def Obstacle.edgeTargetPosition (o : Obstacle) (e : EdgeType) : RobotPosition :=
  let base := o.standardTargetPosition
  match Obstacle.edgeAdjustment e o.direction with
  | some a => base.adjust a
  | none => base

/-- Obstacle._calculate_robot_target_position: corner obstacles use the
corner table, then edge obstacles the edge table, all others the standard
standoff. -/
def Obstacle.calculateRobotTargetPosition (o : Obstacle) : RobotPosition :=
  match o.cornerType with
  | some c => o.cornerTargetPosition c
  | none =>
    match o.edgeType with
    | some e => o.edgeTargetPosition e
    | none => o.standardTargetPosition

/- Specification-side definitions used to state the claims. -/

/-- Opposite cardinal direction, as the spec words the target heading. -/
def Direction.opposite : Direction → Direction
  | .TOP => .BOTTOM
  | .BOTTOM => .TOP
  | .LEFT => .RIGHT
  | .RIGHT => .LEFT

/-- Unit vector (in grid units) of the side a direction faces. -/
def Direction.unitVec : Direction → Int × Int
  | .TOP => (0, 1)
  | .BOTTOM => (0, -1)
  | .LEFT => (-1, 0)
  | .RIGHT => (1, 0)

/-- STANDOFF of the spec: 40 units. -/
def STANDOFF : Int := 40

/-- Validity predicate as claim C2 words it: inside the playable interior
and outside every axis-aligned SAFETY square of half width 10. -/
def claimValidPosition (g : Grid) (p : Position) : Bool :=
  (GRID_CELL_LENGTH ≤ p.x && p.x < GRID_LENGTH - GRID_CELL_LENGTH &&
    GRID_CELL_LENGTH ≤ p.y && p.y < GRID_LENGTH - GRID_CELL_LENGTH) &&
  !(g.obstacles.any (fun o =>
      ((p.x - o.x).natAbs : Int) ≤ OBSTACLE_SAFETY_WIDTH &&
        ((p.y - o.y).natAbs : Int) ≤ OBSTACLE_SAFETY_WIDTH))

/-- Claim C1: for every obstacle with cell-aligned centre facing H, the
standard target pose stands off by STANDOFF = 40 units on the side H
faces with heading opposite H, and the obstacle at (0,0) facing N yields
base target (0,40,S) and, after the bottom-left corner adjustment (+10,0),
final target pose (10,40,S). -/
theorem C1_target_pose (o : Obstacle) (h : o.x % 10 = 0 ∧ o.y % 10 = 0) :
    (o.standardTargetPosition.x = o.x + STANDOFF * o.direction.unitVec.1 ∧
      o.standardTargetPosition.y = o.y + STANDOFF * o.direction.unitVec.2 ∧
      o.standardTargetPosition.direction = o.direction.opposite) ∧
    (Obstacle.standardTargetPosition ⟨0, 0, .TOP, 1⟩ =
        { x := 0, y := 40, direction := .BOTTOM } ∧
      Obstacle.calculateRobotTargetPosition ⟨0, 0, .TOP, 1⟩ =
        { x := 10, y := 40, direction := .BOTTOM }) := by
  refine ⟨?_, by decide⟩
  cases hd : o.direction <;>
    simp [Obstacle.standardTargetPosition, Direction.unitVec, Direction.opposite, hd,
      STANDOFF, OBSTACLE_SAFETY_OFFSET, OBSTACLE_SAFETY_WIDTH, OBSTACLE_SAFETY_MULTIPLIER,
      OBSTACLE_LENGTH] <;> omega

/-- Witness for C1 at the corner obstacle (0,0,N,1). -/
theorem C1_target_pose_witness :
    ((0 : Int) % 10 = 0 ∧ (0 : Int) % 10 = 0) ∧
      (Obstacle.standardTargetPosition ⟨0, 0, .TOP, 1⟩).direction =
        Direction.opposite Direction.TOP :=
  ⟨by decide, ((C1_target_pose ⟨0, 0, .TOP, 1⟩ (by decide)).1).2.2⟩

/-- Claim C2 counterexample: with a single obstacle at (100,100), the point
(120,100) lies outside the claimed square [ox-10, ox+10] x [oy-10, oy+10]
and inside the interior, so the claim predicts a valid position, yet
check_valid_position rejects it (the full 3x3 probe block inflates the
blocked zone by one extra cell on each side). -/
theorem C2_counterexample :
    Grid.checkValidPosition ⟨[⟨100, 100, .TOP, 1⟩]⟩ ⟨120, 100, none⟩ false = false ∧
      claimValidPosition ⟨[⟨100, 100, .TOP, 1⟩]⟩ ⟨120, 100, none⟩ = true := by
  decide

/-- Claim C2 as amended: check_valid_position(p) is false exactly when p
lies outside [CELL, GRID_LENGTH-CELL) in x or y, or when p lies within the
axis-aligned square [ox-2*SAFETY, ox+2*SAFETY] x [oy-2*SAFETY, oy+2*SAFETY]
of some obstacle (the probe block of Obstacle.check_within_boundary widens
the inflation from 10 to 20 units for integer positions). -/
theorem C2_validity_characterisation (obs : List Obstacle) (p : Position) :
    Grid.checkValidPosition ⟨obs⟩ p false = false ↔
      (¬ (GRID_CELL_LENGTH ≤ p.x ∧ p.x < GRID_LENGTH - GRID_CELL_LENGTH ∧
          GRID_CELL_LENGTH ≤ p.y ∧ p.y < GRID_LENGTH - GRID_CELL_LENGTH)) ∨
        (∃ o ∈ obs, (p.x - o.x).natAbs ≤ 20 ∧ (p.y - o.y).natAbs ≤ 20) := by
  have key : ∀ o : Obstacle, o.checkWithinBoundary p 0 = true ↔
      ((p.x - o.x).natAbs ≤ 20 ∧ (p.y - o.y).natAbs ≤ 20) := by
    intro o
    simp only [Obstacle.checkWithinBoundary, Obstacle.positionsToCheck,
      Obstacle.isPositionInSafetyZone, GRID_CELL_LENGTH, OBSTACLE_SAFETY_WIDTH,
      List.any_eq_true, List.mem_filter]
    constructor
    · rintro ⟨q, hq, hin⟩
      simp only [show (0 : Nat) = 1 ↔ False by decide, show (0 : Nat) = 2 ↔ False by decide,
        if_false, reduceIte, List.mem_cons, List.not_mem_nil, or_false] at hq
      simp only [Bool.and_eq_true, decide_eq_true_eq] at hin
      rcases hq with h | h | h | h | h | h | h | h | h <;> subst h <;>
        simp only at hin <;> omega
    · rintro ⟨hx, hy⟩
      by_cases h1 : p.x - o.x ≤ -11
      all_goals by_cases h2 : 11 ≤ p.x - o.x
      all_goals by_cases h3 : p.y - o.y ≤ -11
      all_goals by_cases h4 : 11 ≤ p.y - o.y
      all_goals first
        | (exact absurd rfl (by omega))
        | (refine ⟨(p.x - 10, p.y - 10), by simp, ?_⟩; simp only [Bool.and_eq_true,
            decide_eq_true_eq]; omega)
        | (refine ⟨(p.x - 10, p.y), by simp, ?_⟩; simp only [Bool.and_eq_true,
            decide_eq_true_eq]; omega)
        | (refine ⟨(p.x - 10, p.y + 10), by simp, ?_⟩; simp only [Bool.and_eq_true,
            decide_eq_true_eq]; omega)
        | (refine ⟨(p.x, p.y - 10), by simp, ?_⟩; simp only [Bool.and_eq_true,
            decide_eq_true_eq]; omega)
        | (refine ⟨(p.x, p.y), by simp, ?_⟩; simp only [Bool.and_eq_true,
            decide_eq_true_eq]; omega)
        | (refine ⟨(p.x, p.y + 10), by simp, ?_⟩; simp only [Bool.and_eq_true,
            decide_eq_true_eq]; omega)
        | (refine ⟨(p.x + 10, p.y - 10), by simp, ?_⟩; simp only [Bool.and_eq_true,
            decide_eq_true_eq]; omega)
        | (refine ⟨(p.x + 10, p.y), by simp, ?_⟩; simp only [Bool.and_eq_true,
            decide_eq_true_eq]; omega)
        | (refine ⟨(p.x + 10, p.y + 10), by simp, ?_⟩; simp only [Bool.and_eq_true,
            decide_eq_true_eq]; omega)
  simp only [Grid.checkValidPosition, Grid.isValidPosition, Grid.isPositionInObstacle,
    Grid.isWithinBoundaries, Bool.not_false, Bool.true_and]
  by_cases hob : ∃ o ∈ obs, (p.x - o.x).natAbs ≤ 20 ∧ (p.y - o.y).natAbs ≤ 20
  · obtain ⟨o, ho, hzone⟩ := hob
    have : obs.any (fun o => o.checkWithinBoundary p 0) = true :=
      List.any_eq_true.mpr ⟨o, ho, (key o).mpr hzone⟩
    simp only [this, if_true]
    constructor
    · intro _
      exact Or.inr ⟨o, ho, hzone⟩
    · intro _
      trivial
  · have : obs.any (fun o => o.checkWithinBoundary p 0) = false := by
      rw [Bool.eq_false_iff]
      intro hc
      obtain ⟨o, ho, hb⟩ := List.any_eq_true.mp hc
      exact hob ⟨o, ho, (key o).mp hb⟩
    simp only [this, if_false, Bool.false_eq_true, reduceIte]
    constructor
    · intro hfalse
      left
      intro hc
      obtain ⟨a, b, c, d⟩ := hc
      simp only [Bool.and_eq_true, decide_eq_true_eq] at hfalse
      rw [Bool.eq_false_iff] at hfalse
      exact hfalse (by simp only [Bool.and_eq_true, decide_eq_true_eq]; exact ⟨⟨⟨a, b⟩, c⟩, d⟩)
    · rintro (hbound | hzone)
      · rw [Bool.eq_false_iff]
        intro hc
        simp only [Bool.and_eq_true, decide_eq_true_eq] at hc
        exact hbound ⟨hc.1.1.1, hc.1.1.2, hc.1.2, hc.2⟩
      · exact absurd hzone hob

/-- Witness for C2 as amended: at the obstacle of the counterexample, the
point (120,100) is indeed rejected (it is inside the widened square). -/
theorem C2_validity_characterisation_witness :
    Grid.checkValidPosition ⟨[⟨100, 100, .TOP, 1⟩]⟩ ⟨120, 100, none⟩ false = false :=
  (C2_validity_characterisation [⟨100, 100, .TOP, 1⟩] ⟨120, 100, none⟩).mpr
    (Or.inr ⟨⟨100, 100, .TOP, 1⟩, by simp, by decide⟩)

/- Commands of commands/command.py and its subclasses.  The tick and
duration machinery (floating point times driven by pygame frame counts)
is not consulted by any planning result and is not modelled; a command is
its payload: a signed straight distance, a turn key, or a scan index. -/

/-- Command: StraightCommand(dist), TurnCommand(type, left, right,
reverse) and ScanCommand(obj_index) of commands/. -/
inductive Command where
  | straight (dist : Int)
  | turn (typeOfTurn : TypeOfTurn) (left : Bool) (right : Bool) (reverse : Bool)
  | scan (objIndex : Int)
deriving DecidableEq, Repr

/-- TurnCommand.SMALL_TURN_DELTAS: displacement table of small turns,
keyed by (left, right, reverse) and the current direction.  Small turns
keep the direction (the table stores None).  Keys outside the table give
the (0, 0, None) default of dict.get. -/
def smallTurnDelta (left right reverse : Bool) (d : Direction) : Int × Int × Option Direction :=
  match left, right, reverse, d with
  | true, false, false, .TOP => (-10, 40, none)
  | true, false, false, .LEFT => (-40, -10, none)
  | true, false, false, .RIGHT => (40, 10, none)
  | true, false, false, .BOTTOM => (10, -40, none)
  | false, true, false, .TOP => (10, 40, none)
  | false, true, false, .LEFT => (-40, 10, none)
  | false, true, false, .RIGHT => (40, -10, none)
  | false, true, false, .BOTTOM => (-10, -40, none)
  | true, false, true, .TOP => (-10, -40, none)
  | true, false, true, .LEFT => (40, -10, none)
  | true, false, true, .RIGHT => (-40, 10, none)
  | true, false, true, .BOTTOM => (10, 40, none)
  | false, true, true, .TOP => (10, -40, none)
  | false, true, true, .LEFT => (40, 10, none)
  | false, true, true, .RIGHT => (-40, -10, none)
  | false, true, true, .BOTTOM => (-10, 40, none)
  | _, _, _, _ => (0, 0, none)

/-- TurnCommand.MEDIUM_TURN_DELTAS: displacement table of medium 90 degree
turns, keyed by (left, right, reverse) and the current direction. -/
def mediumTurnDelta (left right reverse : Bool) (d : Direction) : Int × Int × Option Direction :=
  match left, right, reverse, d with
  | true, false, false, .TOP => (-30, 20, some .LEFT)
  | true, false, false, .LEFT => (-20, -30, some .BOTTOM)
  | true, false, false, .RIGHT => (20, 30, some .TOP)
  | true, false, false, .BOTTOM => (30, -20, some .RIGHT)
  | false, true, false, .TOP => (30, 20, some .RIGHT)
  | false, true, false, .LEFT => (-20, 30, some .TOP)
  | false, true, false, .RIGHT => (20, -30, some .BOTTOM)
  | false, true, false, .BOTTOM => (-30, -20, some .LEFT)
  | true, false, true, .TOP => (-20, -30, some .RIGHT)
  | true, false, true, .LEFT => (30, -20, some .TOP)
  | true, false, true, .RIGHT => (-30, 20, some .BOTTOM)
  | true, false, true, .BOTTOM => (20, 30, some .LEFT)
  | false, true, true, .TOP => (20, -30, some .LEFT)
  | false, true, true, .LEFT => (30, 20, some .BOTTOM)
  | false, true, true, .RIGHT => (-30, -20, some .TOP)
  | false, true, true, .BOTTOM => (-20, 30, some .RIGHT)
  | _, _, _, _ => (0, 0, none)

/-- TurnCommand._get_position_delta: dispatch on the turn magnitude; large
turns are unimplemented in the source and give (0, 0, None). -/
def turnPositionDelta (t : TypeOfTurn) (left right reverse : Bool) (d : Direction) :
    Int × Int × Option Direction :=
  match t with
  | .SMALL => smallTurnDelta left right reverse d
  | .MEDIUM => mediumTurnDelta left right reverse d
  | .LARGE => (0, 0, none)

/-- Command apply_on_pos, as a pure transformation of the pose (the source
mutates in place; the pose arithmetic is identical).  Scan commands leave
the pose unchanged. -/
def Command.applyOnPos : Command → RobotPosition → RobotPosition
  | .straight dist, p =>
    match p.direction with
    | .RIGHT => { p with x := p.x + dist }
    | .TOP => { p with y := p.y + dist }
    | .BOTTOM => { p with y := p.y - dist }
    | .LEFT => { p with x := p.x - dist }
  | .turn t l r rev, p =>
    let d := turnPositionDelta t l r rev p.direction
    { x := p.x + d.1, y := p.y + d.2.1, direction := d.2.2.getD p.direction }
  | .scan _, p => p

/- Decimal rendering.  Python formats integers in decimal; the embedding
renders them through an explicit digit list so that concrete strings
evaluate inside the kernel. -/

/-- Decimal digit character of a digit value below ten, through the ASCII
code 48 of the zero character. -/
def digitChar (d : Nat) : Char :=
  if d < 10 then Char.ofNat (48 + d) else '*'

/-- Little-endian decimal digits, driven by an explicit fuel so the
recursion is structural; fuel at least n suffices. -/
def natDigitsRevAux : Nat → Nat → List Nat
  | _, 0 => []
  | 0, _ + 1 => []
  | fuel + 1, n + 1 => ((n + 1) % 10) :: natDigitsRevAux fuel ((n + 1) / 10)

/-- Little-endian decimal digits of a natural number. -/
def natDigitsRev (n : Nat) : List Nat := natDigitsRevAux n n

/-- Decimal character list of a natural number (Python str of a
nonnegative int). -/
def natRepr (n : Nat) : List Char :=
  if n = 0 then ['0'] else (natDigitsRev n).reverse.map digitChar

/-- Decimal string of a natural number. -/
def natStr (n : Nat) : String := ⟨natRepr n⟩

/-- Decimal string of an integer (Python str of an int). -/
def intStr (i : Int) : String :=
  if i < 0 then ⟨'-' :: natRepr i.natAbs⟩ else natStr i.natAbs

/-- Command convert_to_message of the three command classes.
StraightCommand: SF or SB, one extra zero when the magnitude is below
100.  TurnCommand: the COMMAND_MESSAGES table with default
UNKNOWN_COMMAND.  ScanCommand: SCAN_ and the index. -/
def Command.convertToMessage : Command → String
  | .straight dist =>
    let distanceCm := dist.natAbs
    let head := if dist < 0 then "SB" else "SF"
    if distanceCm < 100 then head ++ "0" ++ natStr distanceCm
    else head ++ natStr distanceCm
  | .turn t l r rev =>
    match l, r, rev, t with
    | true, false, false, .SMALL => "KF001"
    | true, false, false, .MEDIUM => "LF090"
    | true, false, false, .LARGE => "LF180"
    | true, false, true, .SMALL => "KB001"
    | true, false, true, .MEDIUM => "LB090"
    | true, false, true, .LARGE => "LB180"
    | false, true, false, .SMALL => "JF001"
    | false, true, false, .MEDIUM => "RF090"
    | false, true, false, .LARGE => "RF180"
    | false, true, true, .SMALL => "JB001"
    | false, true, true, .MEDIUM => "RB090"
    | false, true, true, .LARGE => "RB180"
    | _, _, _, _ => "UNKNOWN_COMMAND"
  | .scan objIndex => "SCAN_" ++ intStr objIndex

/-- Zero-padded three-digit decimal rendering, as claim C6 words the
straight encoding. -/
def zeroPad3 (n : Nat) : String :=
  if n < 10 then "00" ++ natStr n
  else if n < 100 then "0" ++ natStr n
  else natStr n

/-- Claim C6 counterexample: the medium left forward turn encodes as
LF090, not FL090; and a 5 cm straight encodes as SF05, not a three-digit
zero-padded SF005. -/
theorem C6_counterexample :
    Command.convertToMessage (.turn .MEDIUM true false false) = "LF090" ∧
      "LF090" ≠ "FL090" ∧
      Command.convertToMessage (.straight 5) = "SF05" ∧ "SF05" ≠ "SF005" := by
  decide

/-- Claim C6 as amended: straight commands whose magnitude is a value
between 10 and 999 encode as SF or SB followed by the zero-padded
three-digit magnitude; the four medium turns encode as LF090, RF090,
LB090, RB090; turn keys outside the table encode as UNKNOWN_COMMAND. -/
theorem C6_wire_encoding :
    (∀ d : Int, 10 ≤ d.natAbs → d.natAbs ≤ 999 →
      Command.convertToMessage (.straight d) =
        (if d < 0 then "SB" else "SF") ++ zeroPad3 d.natAbs) ∧
      Command.convertToMessage (.turn .MEDIUM true false false) = "LF090" ∧
      Command.convertToMessage (.turn .MEDIUM false true false) = "RF090" ∧
      Command.convertToMessage (.turn .MEDIUM true false true) = "LB090" ∧
      Command.convertToMessage (.turn .MEDIUM false true true) = "RB090" ∧
      (∀ t rev b, Command.convertToMessage (.turn t b b rev) = "UNKNOWN_COMMAND") := by
  refine ⟨?_, by decide, by decide, by decide, by decide,
    by intro t rev b; cases t <;> cases rev <;> cases b <;> rfl⟩
  intro d h10 h999
  simp only [Command.convertToMessage, zeroPad3]
  by_cases hlt : d.natAbs < 100
  · simp only [hlt, if_true, show ¬ d.natAbs < 10 by omega, if_false, reduceIte,
      String.append_assoc]
  · simp only [hlt, if_false, show ¬ d.natAbs < 10 by omega, reduceIte]

/-- Witness for C6 as amended at the 70 cm forward straight. -/
theorem C6_wire_encoding_witness :
    (10 ≤ (70 : Int).natAbs ∧ (70 : Int).natAbs ≤ 999) ∧
      Command.convertToMessage (.straight 70) =
        (if (70 : Int) < 0 then "SB" else "SF") ++ zeroPad3 (70 : Int).natAbs :=
  ⟨⟨by decide, by decide⟩, C6_wire_encoding.1 70 (by decide) (by decide)⟩

/- Parsing helpers of services/pathing_algo.py.  Python strings are
embedded as character lists; str.split with a one-character separator is
the splitOnChar function below, and int() on the decimal fragments the
service actually receives is parsePyInt (an optional minus sign followed
by decimal digits; the wider int() syntax of whitespace, plus signs and
underscores is never exercised by these inputs and is not modelled). -/

/-- Value of a decimal digit character, through its ASCII code. -/
def digitVal (c : Char) : Option Nat :=
  let v := c.toNat
  if 48 ≤ v ∧ v ≤ 57 then some (v - 48) else none

/-- Accumulating decimal parse, most significant digit first. -/
def parseDigitsAux (acc : Nat) : List Char → Option Nat
  | [] => some acc
  | c :: cs =>
    match digitVal c with
    | some d => parseDigitsAux (acc * 10 + d) cs
    | none => none

/-- Python int() on a nonempty all-digit string; empty or non-digit input
fails (raises ValueError in the source). -/
def parsePyNat (cs : List Char) : Option Nat :=
  if cs = [] then none else parseDigitsAux 0 cs

/-- Python int() on an optionally minus-signed digit string. -/
def parsePyInt (cs : List Char) : Option Int :=
  match cs with
  | [] => none
  | c :: rest =>
    if c = '-' then (parsePyNat rest).map (fun n => -(n : Int))
    else (parsePyNat (c :: rest)).map (fun n => (n : Int))

/-- Accumulator for splitOnChar. -/
def splitOnCharAux (sep : Char) : List Char → List Char → List (List Char)
  | [], acc => [acc.reverse]
  | c :: rest, acc =>
    if c = sep then acc.reverse :: splitOnCharAux sep rest []
    else splitOnCharAux sep rest (c :: acc)

/-- Python str.split with a one-character separator: fields between
separators are kept, including empty ones (an empty input gives one empty
field). -/
def splitOnChar (sep : Char) (l : List Char) : List (List Char) :=
  splitOnCharAux sep l []

/-- direction_map.get(parts[2], 0) of parse_rpi_message. -/
def directionFromChars (cs : List Char) : Int :=
  if cs = ['N'] then 90
  else if cs = ['S'] then -90
  else if cs = ['E'] then 0
  else if cs = ['W'] then 180
  else 0

/-- One trip around the record loop of parse_rpi_message: none models the
uncaught ValueError of int(), some none a record skipped by the field
count check, some (some r) a parsed record (x and y scaled by 10,
direction letter mapped through direction_map with default 0). -/
def parseOneRecord (rec : List Char) : Option (Option (Int × Int × Int × Int)) :=
  let parts := splitOnChar ',' rec
  if parts.length ≠ 4 then some none
  else
    match parsePyInt (parts.getD 0 []) with
    | none => none
    | some x =>
      match parsePyInt (parts.getD 1 []) with
      | none => none
      | some y =>
        let dir := directionFromChars (parts.getD 2 [])
        match parsePyInt (parts.getD 3 []) with
        | none => none
        | some i => some (some (x * 10, y * 10, dir, i))

/-- Record loop of parse_rpi_message over the already-split record
strings; a ValueError inside any record aborts the whole batch. -/
def parseRpiRecords : List (List Char) → Option (List (Int × Int × Int × Int))
  | [] => some []
  | rec :: rest =>
    match parseOneRecord rec with
    | none => none
    | some none => parseRpiRecords rest
    | some (some r) => (parseRpiRecords rest).map (fun tl => r :: tl)

/-- parse_rpi_message: drop the four ALG: characters, split on
semicolons, drop the trailing empty field, then run the record loop. -/
def parseRpiMessage (message : List Char) : Option (List (Int × Int × Int × Int)) :=
  let data := (splitOnChar ';' (message.drop 4)).dropLast
  parseRpiRecords data

/-- Direction letter map as the spec words it: only N, S, E, W are known;
anything else is an unknown direction. -/
def specDirectionValue (cs : List Char) : Option Int :=
  if cs = ['N'] then some 90
  else if cs = ['S'] then some (-90)
  else if cs = ['E'] then some 0
  else if cs = ['W'] then some 180
  else none

/-- Batch parser as claim C9 words it: every malformed record (wrong
field count, non-integer numeric field, unknown direction letter) is
skipped and the remaining records are still processed. -/
def specSkipParse (message : List Char) : List (Int × Int × Int × Int) :=
  ((splitOnChar ';' (message.drop 4)).dropLast).filterMap (fun rec =>
    let parts := splitOnChar ',' rec
    if parts.length = 4 then
      match parsePyInt (parts.getD 0 []), parsePyInt (parts.getD 1 []),
          specDirectionValue (parts.getD 2 []), parsePyInt (parts.getD 3 []) with
      | some x, some y, some d, some i => some (x * 10, y * 10, d, i)
      | _, _, _, _ => none
    else none)

/-- process_string_command: split on commas; with at least two fields,
parse the second as the obstacle id and return the fallback triple; a
parse failure (or fewer than two fields) returns nothing. -/
def processStringCommand (command : List Char) : Option (List String) :=
  let commandParts := splitOnChar ',' command
  if 2 ≤ commandParts.length then
    match parsePyInt (commandParts.getD 1 []) with
    | some objId =>
      some [ (Command.straight (-10)).convertToMessage,
             (Command.scan objId).convertToMessage,
             (Command.straight 10).convertToMessage ]
    | none => none
  else none

/- Decimal round trip: the decimal rendering of a natural number parses
back to the same number.  These lemmas back claim C7. -/

/-- Value of a little-endian digit list. -/
def decValue (l : List Nat) : Nat := l.foldr (fun d acc => d + 10 * acc) 0

theorem decValue_natDigitsRevAux (fuel : Nat) :
    ∀ n : Nat, n ≤ fuel → decValue (natDigitsRevAux fuel n) = n := by
  induction fuel with
  | zero =>
    intro n hn
    interval_cases n
    rfl
  | succ fuel ih =>
    intro n hn
    match n with
    | 0 => rfl
    | m + 1 =>
      have hdiv : (m + 1) / 10 ≤ fuel := by
        have := Nat.div_lt_self (Nat.succ_pos m) (by norm_num : 1 < 10)
        omega
      simp only [natDigitsRevAux, decValue, List.foldr_cons]
      have := ih ((m + 1) / 10) hdiv
      simp only [decValue] at this
      rw [this]
      omega

theorem natDigitsRevAux_lt (fuel : Nat) :
    ∀ n d : Nat, d ∈ natDigitsRevAux fuel n → d < 10 := by
  induction fuel with
  | zero =>
    intro n d hd
    match n with
    | 0 => simp [natDigitsRevAux] at hd
    | m + 1 => simp [natDigitsRevAux] at hd
  | succ fuel ih =>
    intro n d hd
    match n with
    | 0 => simp [natDigitsRevAux] at hd
    | m + 1 =>
      simp only [natDigitsRevAux, List.mem_cons] at hd
      rcases hd with h | h
      · omega
      · exact ih _ _ h

theorem digitVal_digitChar (d : Nat) (h : d < 10) : digitVal (digitChar d) = some d := by
  interval_cases d <;> rfl

theorem digitVal_mem_natRepr (n : Nat) (c : Char) (hc : c ∈ natRepr n) :
    (digitVal c).isSome = true := by
  unfold natRepr at hc
  by_cases hn : n = 0
  · rw [if_pos hn] at hc
    simp only [List.mem_singleton] at hc
    subst hc
    rfl
  · simp only [hn, if_false, reduceIte, List.mem_map, List.mem_reverse] at hc
    obtain ⟨d, hd, rfl⟩ := hc
    have := natDigitsRevAux_lt n n d hd
    rw [digitVal_digitChar d this]
    rfl

theorem parseDigitsAux_map (ds : List Nat) :
    ∀ acc : Nat, (∀ d ∈ ds, d < 10) →
      parseDigitsAux acc (ds.map digitChar) = some (ds.foldl (fun a d => a * 10 + d) acc) := by
  induction ds with
  | nil => intro acc _; rfl
  | cons d t ih =>
    intro acc hds
    simp only [List.map_cons, parseDigitsAux, digitVal_digitChar d (hds d (by simp)),
      List.foldl_cons]
    exact ih (acc * 10 + d) (fun e he => hds e (by simp [he]))

theorem foldl_reverse_decValue (L : List Nat) :
    ∀ acc : Nat, L.reverse.foldl (fun a d => a * 10 + d) acc = acc * 10 ^ L.length + decValue L := by
  induction L with
  | nil => intro acc; simp [decValue]
  | cons d t ih =>
    intro acc
    simp only [List.reverse_cons, List.foldl_append, List.foldl_cons, List.foldl_nil, ih,
      decValue, List.foldr_cons, List.length_cons]
    ring

theorem natDigitsRev_ne_nil (m : Nat) : natDigitsRev (m + 1) ≠ [] := by
  simp [natDigitsRev, natDigitsRevAux]

theorem parsePyNat_natRepr (n : Nat) : parsePyNat (natRepr n) = some n := by
  by_cases hn : n = 0
  · subst hn; rfl
  · obtain ⟨m, rfl⟩ := Nat.exists_eq_succ_of_ne_zero hn
    unfold natRepr parsePyNat
    simp only [hn, if_false, reduceIte]
    rw [if_neg (by simp [natDigitsRev_ne_nil m])]
    rw [parseDigitsAux_map _ 0
      (fun d hd => natDigitsRevAux_lt (m + 1) (m + 1) d (by simpa using hd))]
    rw [foldl_reverse_decValue]
    simp only [natDigitsRev]
    rw [decValue_natDigitsRevAux (m + 1) (m + 1) le_rfl]
    simp

theorem natRepr_head_not_minus (n : Nat) (c : Char) (hc : c ∈ natRepr n) : c ≠ '-' := by
  intro h
  subst h
  have := digitVal_mem_natRepr n _ hc
  simp [digitVal] at this

theorem natRepr_not_comma (n : Nat) (c : Char) (hc : c ∈ natRepr n) : c ≠ ',' := by
  intro h
  subst h
  have := digitVal_mem_natRepr n _ hc
  simp [digitVal] at this

theorem parsePyInt_natRepr (n : Nat) : parsePyInt (natRepr n) = some (n : Int) := by
  rcases he : natRepr n with _ | ⟨c, rest⟩
  · exact absurd he (by
      unfold natRepr
      by_cases hn : n = 0
      · simp [hn]
      · obtain ⟨m, rfl⟩ := Nat.exists_eq_succ_of_ne_zero hn
        simp [hn, natDigitsRev_ne_nil m])
  · have hcm : c ∈ natRepr n := by rw [he]; simp
    simp only [parsePyInt, natRepr_head_not_minus n c hcm, if_neg, reduceIte]
    rw [← he, parsePyNat_natRepr]
    rfl

/-- Rendering of a nonnegative integer agrees with the natural number
rendering. -/
theorem intStr_ofNat (n : Nat) : intStr (n : Int) = natStr n := by
  simp [intStr, natStr]

/- Splitting lemmas for the comma and semicolon fields. -/

theorem splitOnCharAux_no_sep (sep : Char) (l : List Char) :
    ∀ acc : List Char, (∀ c ∈ l, c ≠ sep) →
      splitOnCharAux sep l acc = [acc.reverse ++ l] := by
  induction l with
  | nil => intro acc _; simp [splitOnCharAux]
  | cons c t ih =>
    intro acc hl
    simp only [splitOnCharAux, hl c (by simp), if_false, reduceIte]
    rw [ih (c :: acc) (fun e he => hl e (by simp [he]))]
    simp

theorem splitOnChar_no_sep (sep : Char) (l : List Char) (hl : ∀ c ∈ l, c ≠ sep) :
    splitOnChar sep l = [l] := by
  unfold splitOnChar
  rw [splitOnCharAux_no_sep sep l [] hl]
  simp

theorem splitOnCharAux_append (sep : Char) (a : List Char) :
    ∀ (b : List Char) (acc : List Char), (∀ c ∈ a, c ≠ sep) →
      splitOnCharAux sep (a ++ sep :: b) acc = (acc.reverse ++ a) :: splitOnChar sep b := by
  induction a with
  | nil =>
    intro b acc _
    simp [splitOnCharAux, splitOnChar]
  | cons c t ih =>
    intro b acc ha
    simp only [List.cons_append, splitOnCharAux, ha c (by simp), if_false, reduceIte,
      List.append_eq]
    rw [ih b (c :: acc) (fun e he => ha e (by simp [he]))]
    simp

theorem splitOnChar_append (sep : Char) (a b : List Char) (ha : ∀ c ∈ a, c ≠ sep) :
    splitOnChar sep (a ++ sep :: b) = a :: splitOnChar sep b := by
  unfold splitOnChar
  rw [splitOnCharAux_append sep a b [] ha]
  simp [splitOnChar]

/-- Claim C7: the alternative payload NONE,id yields exactly the
three-command string list SB010, SCAN_id, SF010, for every nonnegative
integer id. -/
theorem C7_fallback_triple (objId : Nat) :
    processStringCommand ("NONE,".data ++ natRepr objId) =
      some ["SB010", "SCAN_" ++ natStr objId, "SF010"] := by
  have hn : "NONE,".data = ['N', 'O', 'N', 'E'] ++ ',' :: ([] : List Char) := by decide
  have hcat : "NONE,".data ++ natRepr objId = ['N', 'O', 'N', 'E'] ++ ',' :: natRepr objId := by
    rw [hn]; simp
  have hsplit : splitOnChar ',' ("NONE,".data ++ natRepr objId) =
      [['N', 'O', 'N', 'E'], natRepr objId] := by
    rw [hcat, splitOnChar_append ',' _ _ (by decide),
      splitOnChar_no_sep ',' _ (fun c hc => natRepr_not_comma objId c hc)]
  simp only [processStringCommand, hsplit, List.length_cons, List.length_singleton]
  rw [if_pos (by norm_num)]
  simp only [List.getD, List.get?, Option.getD_some]
  rw [parsePyInt_natRepr objId]
  simp only [Command.convertToMessage, intStr_ofNat]
  rfl

/-- Claim C9 counterexample: a record with a non-integer x field aborts
the whole batch (the claimed skipping semantics would keep the second
record), and a record with an unknown direction letter is kept with
default direction 0 instead of being skipped. -/
theorem C9_counterexample :
    parseRpiMessage "ALG:a,1,N,5;9,9,N,2;".data = none ∧
      specSkipParse "ALG:a,1,N,5;9,9,N,2;".data = [(90, 90, 90, 2)] ∧
      parseRpiMessage "ALG:1,1,X,5;".data = some [(10, 10, 0, 5)] ∧
      specSkipParse "ALG:1,1,X,5;".data = [] := by
  decide

theorem parseRpiRecords_skip (rec : List Char) (h : parseOneRecord rec = some none) :
    ∀ pre suf : List (List Char),
      parseRpiRecords (pre ++ rec :: suf) = parseRpiRecords (pre ++ suf) := by
  intro pre suf
  induction pre with
  | nil => simp [parseRpiRecords, h]
  | cons p pre ih =>
    simp only [List.cons_append, parseRpiRecords, List.append_eq]
    rw [ih]

theorem parseRpiRecords_abort (rec : List Char) (h : parseOneRecord rec = none) :
    ∀ pre suf : List (List Char), parseRpiRecords (pre ++ rec :: suf) = none := by
  intro pre suf
  induction pre with
  | nil => simp [parseRpiRecords, h]
  | cons p pre ih =>
    simp only [List.cons_append, parseRpiRecords, List.append_eq]
    rw [ih]
    rcases parseOneRecord p with _ | _ | r <;> rfl

theorem specDirectionValue_none (cs : List Char) (h : specDirectionValue cs = none) :
    directionFromChars cs = 0 := by
  unfold specDirectionValue at h
  unfold directionFromChars
  split_ifs at h ⊢ <;> simp_all

/-- Claim C9 as amended: records with the wrong field count are skipped
and the remaining records are still processed; but a record whose numeric
field is not an integer aborts the entire batch (uncaught ValueError),
and a record with an unknown direction letter is not skipped: it is kept
with default direction 0. -/
theorem C9_malformed_records (rec : List Char) (pre suf : List (List Char)) :
    ((splitOnChar ',' rec).length ≠ 4 → parseOneRecord rec = some none) ∧
      (parseOneRecord rec = some none →
        parseRpiRecords (pre ++ rec :: suf) = parseRpiRecords (pre ++ suf)) ∧
      (parseOneRecord rec = none → parseRpiRecords (pre ++ rec :: suf) = none) ∧
      (∀ (p0 p1 p2 p3 : List Char) (x y i : Int),
        splitOnChar ',' rec = [p0, p1, p2, p3] →
        parsePyInt p0 = some x → parsePyInt p1 = some y → parsePyInt p3 = some i →
        specDirectionValue p2 = none →
        parseOneRecord rec = some (some (x * 10, y * 10, 0, i))) := by
  refine ⟨?_, fun h => parseRpiRecords_skip rec h pre suf,
    fun h => parseRpiRecords_abort rec h pre suf, ?_⟩
  · intro h
    simp [parseOneRecord, h]
  · intro p0 p1 p2 p3 x y i hsplit h0 h1 h3 hdir
    simp only [parseOneRecord, hsplit, List.length_cons, List.length_singleton]
    rw [if_neg (by norm_num)]
    simp only [List.getD, List.get?, Option.getD_some]
    rw [h0, h1, h3, specDirectionValue_none p2 hdir]

/-- Witness for C9 as amended: a one-field record is skipped between two
good records, a bad-integer record aborts, and an unknown direction
record parses with direction 0. -/
theorem C9_malformed_records_witness :
    ((splitOnChar ',' ['1']).length ≠ 4 ∧
        parseRpiRecords [['1'], "9,9,N,2".data] = parseRpiRecords ["9,9,N,2".data]) ∧
      (parseOneRecord "a,1,N,5".data = none ∧
        parseRpiRecords ["a,1,N,5".data, "9,9,N,2".data] = none) ∧
      parseOneRecord "1,1,X,5".data = some (some (1 * 10, 1 * 10, 0, 5)) := by
  have h := C9_malformed_records ['1'] [] ["9,9,N,2".data]
  have h2 := C9_malformed_records "a,1,N,5".data [] ["9,9,N,2".data]
  have h3 := C9_malformed_records "1,1,X,5".data [] []
  refine ⟨⟨by decide, h.2.1 (h.1 (by decide))⟩, ⟨by decide, h2.2.2.1 (by decide)⟩, ?_⟩
  exact h3.2.2.2 "1".data "1".data "X".data "5".data 1 1 5 (by decide) (by decide)
    (by decide) (by decide) (by decide)

/- Tour solver estimate of path_finding/hamiltonian.py.  Python computes
the two summands with float division; both divisions are of integers by
the constants 10 and 90 and the claim equates the same two summands, so
the embedding uses exact rational arithmetic. -/

/-- Hamiltonian.DISTANCE_SCALE_FACTOR. -/
def Hamiltonian.DISTANCE_SCALE_FACTOR : ℚ := 10

/-- Hamiltonian.DIRECTION_CHANGE_WEIGHT. -/
def Hamiltonian.DIRECTION_CHANGE_WEIGHT : ℚ := 5

/-- Hamiltonian.DIRECTION_DEGREE_UNIT. -/
def Hamiltonian.DIRECTION_DEGREE_UNIT : ℚ := 90

/-- Hamiltonian._calculate_weighted_distance: diagonal distance plus the
two axis remainders, scaled by 10, plus the folded heading difference
penalty.  The direction guard of the source (if source_dir and dest_dir)
is the presence test of the two optional directions. -/
def calculateWeightedDistance (source dest : Position) : ℚ :=
  let absXDiff : Int := ((source.x - dest.x).natAbs : Int)
  let absYDiff : Int := ((source.y - dest.y).natAbs : Int)
  let diagDistance : Int := min absXDiff absYDiff
  let remainingX : Int := absXDiff - diagDistance
  let remainingY : Int := absYDiff - diagDistance
  let gridDistance : ℚ :=
    ((diagDistance + remainingX + remainingY : Int) : ℚ) / Hamiltonian.DISTANCE_SCALE_FACTOR
  let dirPenalty : ℚ :=
    match source.direction, dest.direction with
    | some sd, some dd =>
      let diff : Int := (((sd.value - dd.value).natAbs : Int))
      let folded : Int := if diff > 180 then 360 - diff else diff
      ((folded : Int) : ℚ) / Hamiltonian.DIRECTION_DEGREE_UNIT * Hamiltonian.DIRECTION_CHANGE_WEIGHT
    | _, _ => 0
  gridDistance + dirPenalty

/-- Pairwise estimate as claim C5 words it: Chebyshev grid distance in the
min-plus-difference form over CELL, plus the heading difference folded to
at most 180 degrees, divided by 90 and weighted by 5. -/
def specPairwiseEstimate (A B : Position) (da db : Direction) : ℚ :=
  let dx : Int := ((A.x - B.x).natAbs : Int)
  let dy : Int := ((A.y - B.y).natAbs : Int)
  let gridDist : ℚ := ((min dx dy + ((dx - dy).natAbs : Int) : Int) : ℚ) / GRID_CELL_LENGTH
  let dtheta : Int := ((da.value - db.value).natAbs : Int) % 360
  let folded : Int := if dtheta > 180 then 360 - dtheta else dtheta
  gridDist + ((folded : Int) : ℚ) / 90 * 5

/-- Claim C5: for poses with cardinal headings, the tour solver pairwise
estimate equals grid_dist + dir_penalty with grid_dist the Chebyshev
distance (min(dx,dy) + the absolute difference of dx and dy) over CELL
and dir_penalty five per quarter turn of folded heading difference. -/
theorem C5_pairwise_estimate (A B : Position) (da db : Direction)
    (hA : A.direction = some da) (hB : B.direction = some db) :
    calculateWeightedDistance A B = specPairwiseEstimate A B da db := by
  unfold calculateWeightedDistance specPairwiseEstimate
  rw [hA, hB]
  have hgrid : (min ((A.x - B.x).natAbs : Int) ((A.y - B.y).natAbs : Int) +
        (((A.x - B.x).natAbs : Int) - min ((A.x - B.x).natAbs : Int) ((A.y - B.y).natAbs : Int)) +
        (((A.y - B.y).natAbs : Int) - min ((A.x - B.x).natAbs : Int) ((A.y - B.y).natAbs : Int))) =
      (min ((A.x - B.x).natAbs : Int) ((A.y - B.y).natAbs : Int) +
        ((((A.x - B.x).natAbs : Int) - ((A.y - B.y).natAbs : Int)).natAbs : Int)) := by
    omega
  simp only
  rw [hgrid]
  cases da <;> cases db <;> norm_num [Direction.value, GRID_CELL_LENGTH,
    Hamiltonian.DISTANCE_SCALE_FACTOR, Hamiltonian.DIRECTION_DEGREE_UNIT,
    Hamiltonian.DIRECTION_CHANGE_WEIGHT]

/-- Witness for C5 at the start pose (20,20,N) and the target (140,100,W)
of the single-obstacle scenario. -/
theorem C5_pairwise_estimate_witness :
    (Position.direction ⟨20, 20, some .TOP⟩ = some Direction.TOP) ∧
      calculateWeightedDistance ⟨20, 20, some .TOP⟩ ⟨140, 100, some .LEFT⟩ =
        specPairwiseEstimate ⟨20, 20, some .TOP⟩ ⟨140, 100, some .LEFT⟩ .TOP .LEFT :=
  ⟨rfl, C5_pairwise_estimate _ _ _ _ rfl rfl⟩

/- Command compression of Hamiltonian._compress_commands. -/

/-- Test for a straight command. -/
def isStraightB : Command → Bool
  | .straight _ => true
  | _ => false

/-- Inner loop of _compress_commands: the running command absorbs the next
command when both are straights; otherwise it is emitted and the next
command becomes the running one.  The running command is always emitted at
the end. -/
def compressGo : Command → List Command → List Command
  | cur, [] => [cur]
  | cur, n :: rest =>
    match cur, n with
    | .straight d1, .straight d2 => compressGo (.straight (d1 + d2)) rest
    | cur, n => cur :: compressGo n rest

/-- Hamiltonian._compress_commands on a command list (the source works on
the deque in place; the list out equals the list in with every run of
consecutive straights summed). -/
def compressCommands : List Command → List Command
  | [] => []
  | c :: rest => compressGo c rest

theorem compressGo_head (rest : List Command) :
    ∀ cur : Command, ∃ h t, compressGo cur rest = h :: t ∧ isStraightB h = isStraightB cur := by
  induction rest with
  | nil => intro cur; exact ⟨cur, [], rfl, rfl⟩
  | cons n r ih =>
    intro cur
    cases cur with
    | straight d1 =>
      cases n with
      | straight d2 =>
        obtain ⟨h, t, heq, hs⟩ := ih (.straight (d1 + d2))
        refine ⟨h, t, ?_, ?_⟩
        · simpa [compressGo] using heq
        · simpa [isStraightB] using hs
      | turn ty l rr rev =>
        exact ⟨.straight d1, compressGo (.turn ty l rr rev) r, rfl, rfl⟩
      | scan i =>
        exact ⟨.straight d1, compressGo (.scan i) r, rfl, rfl⟩
    | turn ty l rr rev =>
      exact ⟨.turn ty l rr rev, compressGo n r, rfl, rfl⟩
    | scan i =>
      exact ⟨.scan i, compressGo n r, rfl, rfl⟩

/-- Absence of adjacent straight pairs. -/
def adjOk : List Command → Bool
  | [] => true
  | [_] => true
  | a :: b :: t => !(isStraightB a && isStraightB b) && adjOk (b :: t)

theorem adjOk_compressGo (rest : List Command) :
    ∀ cur : Command, adjOk (compressGo cur rest) = true := by
  induction rest with
  | nil => intro cur; rfl
  | cons n r ih =>
    intro cur
    obtain ⟨h, t, heq, hs⟩ := compressGo_head r n
    have htail : adjOk (h :: t) = true := by
      rw [← heq]; exact ih n
    cases cur with
    | straight d1 =>
      cases n with
      | straight d2 => simpa [compressGo] using ih (.straight (d1 + d2))
      | turn ty l rr rev =>
        change (adjOk (Command.straight d1 :: compressGo (.turn ty l rr rev) r)) = true
        rw [heq]
        change (!(isStraightB (Command.straight d1) && isStraightB h) && adjOk (h :: t)) = true
        rw [hs, htail]
        rfl
      | scan i =>
        change (adjOk (Command.straight d1 :: compressGo (.scan i) r)) = true
        rw [heq]
        change (!(isStraightB (Command.straight d1) && isStraightB h) && adjOk (h :: t)) = true
        rw [hs, htail]
        rfl
    | turn ty l rr rev =>
      change (adjOk (Command.turn ty l rr rev :: compressGo n r)) = true
      rw [heq]
      change (!(isStraightB (Command.turn ty l rr rev) && isStraightB h) && adjOk (h :: t)) = true
      rw [htail]
      simp [isStraightB]
    | scan i =>
      change (adjOk (Command.scan i :: compressGo n r)) = true
      rw [heq]
      change (!(isStraightB (Command.scan i) && isStraightB h) && adjOk (h :: t)) = true
      rw [htail]
      simp [isStraightB]

theorem compressGo_of_adjOk (rest : List Command) :
    ∀ cur : Command, adjOk (cur :: rest) = true → compressGo cur rest = cur :: rest := by
  induction rest with
  | nil => intro cur _; rfl
  | cons n r ih =>
    intro cur hadj
    simp only [adjOk, Bool.and_eq_true, Bool.not_eq_true] at hadj
    obtain ⟨hpair, htail⟩ := hadj
    cases cur with
    | straight d1 =>
      cases n with
      | straight d2 => simp [isStraightB] at hpair
      | turn ty l rr rev => simp [compressGo, ih _ htail]
      | scan i => simp [compressGo, ih _ htail]
    | turn ty l rr rev => simp [compressGo, ih _ htail]
    | scan i => simp [compressGo, ih _ htail]

/-- Claim C8: the straight-run compression pass is idempotent. -/
theorem C8_compress_idempotent (P : List Command) :
    compressCommands (compressCommands P) = compressCommands P := by
  cases P with
  | nil => rfl
  | cons c rest =>
    show compressCommands (compressGo c rest) = compressGo c rest
    obtain ⟨h, t, heq, _⟩ := compressGo_head rest c
    have hadj : adjOk (h :: t) = true := by
      have := adjOk_compressGo rest c
      rw [heq] at this
      exact this
    rw [heq]
    show compressGo h t = h :: t
    exact compressGo_of_adjOk t h hadj

/- Kinematic A* of path_finding/modified_a_star.py and
path_finding/weighted_a_star.py.  Search states are (x, y, direction)
triples (p.xy() plus the direction); the open set, cost and came-from
dictionaries of one A* run are embedded as association lists keyed by
such triples. -/

/-- Search state key: p.xy() + (p.get_dir(),). -/
abbrev AStarNode := Int × Int × Direction

/-- Node of a robot position. -/
def RobotPosition.node (p : RobotPosition) : AStarNode := (p.x, p.y, p.direction)

/-- Swept-arc validity checks of ModifiedAStar.check_valid_command for a
turn command: the post-turn pose and the two chains of intermediate
points, all with ignore_obstacles = the truthiness of yolo.  Non-turn
commands perform no sweep.  The quadrant is classified by the signs of the
displacement; the bottom-left case tests the source expression
(p.direction == Direction.LEFT or p.direction.RIGHT), whose second operand
is a truthy enum member, so that branch condition is constantly true. -/
def turnChecksOk (g : Grid) (yolo : Nat) (c : Command) (p : RobotPosition) : Bool :=
  match c with
  | .turn t l r rev =>
    let p_c := (Command.turn t l r rev).applyOnPos p
    if !(g.checkValidPosition p_c.pos (pyTruthy yolo)) then false
    else
      let diffInX := p_c.x - p.x
      let diffInY := p_c.y - p.y
      if diffInY > 0 && diffInX > 0 then
        if p.direction = .TOP || p.direction = .BOTTOM then
          ((List.range ((diffInY.fdiv 10).natAbs)).all (fun y =>
            g.checkValidPosition ⟨p.x, p.y + ((y : Int) + 1) * 10, some p.direction⟩
              (pyTruthy yolo)) &&
          (List.range ((diffInX.fdiv 10).natAbs)).all (fun x =>
            g.checkValidPosition ⟨p_c.x - ((x : Int) + 1) * 10, p_c.y, some p_c.direction⟩
              (pyTruthy yolo)))
        else
          ((List.range ((diffInY.fdiv 10).natAbs)).all (fun y =>
            g.checkValidPosition ⟨p_c.x, p_c.y - ((y : Int) + 1) * 10, some p_c.direction⟩
              (pyTruthy yolo)) &&
          (List.range ((diffInX.fdiv 10).natAbs)).all (fun x =>
            g.checkValidPosition ⟨p.x + ((x : Int) + 1) * 10, p.y, some p.direction⟩
              (pyTruthy yolo)))
      else if diffInX < 0 && diffInY > 0 then
        if p.direction = .TOP || p.direction = .BOTTOM then
          ((List.range ((diffInY.fdiv 10).natAbs)).all (fun y =>
            g.checkValidPosition ⟨p.x, p.y + ((y : Int) + 1) * 10, some p.direction⟩
              (pyTruthy yolo)) &&
          (List.range ((diffInX.fdiv 10).natAbs)).all (fun x =>
            g.checkValidPosition ⟨p_c.x + ((x : Int) + 1) * 10, p_c.y, some p_c.direction⟩
              (pyTruthy yolo)))
        else
          ((List.range ((diffInY.fdiv 10).natAbs)).all (fun y =>
            g.checkValidPosition ⟨p_c.x, p_c.y - ((y : Int) + 1) * 10, some p_c.direction⟩
              (pyTruthy yolo)) &&
          (List.range ((diffInX.fdiv 10).natAbs)).all (fun x =>
            g.checkValidPosition ⟨p.x - ((x : Int) + 1) * 10, p.y, some p.direction⟩
              (pyTruthy yolo)))
      else if diffInX < 0 && diffInY < 0 then
        ((List.range ((diffInY.fdiv 10).natAbs)).all (fun y =>
          g.checkValidPosition ⟨p_c.x, p_c.y + ((y : Int) + 1) * 10, some p_c.direction⟩
            (pyTruthy yolo)) &&
        (List.range ((diffInX.fdiv 10).natAbs)).all (fun x =>
          g.checkValidPosition ⟨p.x - ((x : Int) + 1) * 10, p.y, some p.direction⟩
            (pyTruthy yolo)))
      else
        if p.direction = .RIGHT || p.direction = .LEFT then
          ((List.range ((diffInY.fdiv 10).natAbs)).all (fun y =>
            g.checkValidPosition ⟨p_c.x, p_c.y + ((y : Int) + 1) * 10, some p_c.direction⟩
              (pyTruthy yolo)) &&
          (List.range ((diffInX.fdiv 10).natAbs)).all (fun x =>
            g.checkValidPosition ⟨p.x + ((x : Int) + 1) * 10, p.y, some p.direction⟩
              (pyTruthy yolo)))
        else
          ((List.range ((diffInY.fdiv 10).natAbs)).all (fun y =>
            g.checkValidPosition ⟨p.x, p.y - ((y : Int) + 1) * 10, some p.direction⟩
              (pyTruthy yolo)) &&
          (List.range ((diffInX.fdiv 10).natAbs)).all (fun x =>
            g.checkValidPosition ⟨p_c.x - ((x : Int) + 1) * 10, p_c.y, some p_c.direction⟩
              (pyTruthy yolo)))
  | _ => true

/-- ModifiedAStar.check_valid_command: the turn sweep (with yolo), then
the command applied to a copy of the pose, then the destination check
without ignoring obstacles; on success the resulting node and pose. -/
def checkValidCommand (g : Grid) (yolo : Nat) (c : Command) (p : RobotPosition) :
    Option (AStarNode × RobotPosition) :=
  if turnChecksOk g yolo c p then
    let p2 := c.applyOnPos p
    if g.checkValidPosition p2.pos false then some (p2.node, p2) else none
  else none

/-- ModifiedAStar.get_neighbours: both unit straights with edge weight
straight_dist = 10, then the four medium turns with edge weight
turn_penalty = 50, or 0 when yolo is truthy. -/
def getNeighbours (g : Grid) (yolo : Nat) (pos : RobotPosition) :
    List (AStarNode × RobotPosition × Int × Command) :=
  let straightDist : Int := 10
  let straightCommands : List Command := [.straight straightDist, .straight (-straightDist)]
  let straightNbrs := straightCommands.filterMap (fun c =>
    (checkValidCommand g yolo c pos).map (fun res => (res.1, res.2, straightDist, c)))
  let turnPenalty : Int := if !(pyTruthy yolo) then 50 else 0
  let turnCommands : List Command :=
    [.turn .MEDIUM true false false, .turn .MEDIUM true false true,
      .turn .MEDIUM false true false, .turn .MEDIUM false true true]
  let turnNbrs := turnCommands.filterMap (fun c =>
    (checkValidCommand g yolo c pos).map (fun res => (res.1, res.2, turnPenalty, c)))
  straightNbrs ++ turnNbrs

/-- WeightedAStar.get_weight: 0 for straights, 10/20/30 for
small/medium/large turns, DEFAULT_WEIGHT = 100 otherwise. -/
def weightedGetWeight (c : Command) : Int :=
  match c with
  | .straight _ => 0
  | .turn t _ _ _ =>
    match t with
    | .SMALL => 10
    | .MEDIUM => 20
    | .LARGE => 30
  | .scan _ => 100

/-- WeightedAStar.distance_heuristic: diagonal steps toward the goal,
then the axis remainders, floor-divided by DISTANCE_SCALE_FACTOR = 10. -/
def weightedDistanceHeuristic (endPos currPos : RobotPosition) : Int :=
  let diag : Int :=
    min ((currPos.x - endPos.x).natAbs : Int) ((currPos.y - endPos.y).natAbs : Int)
  let sx := currPos.x + (if currPos.x < endPos.x then diag else -diag)
  let sy := currPos.y + (if currPos.y < endPos.y then diag else -diag)
  (diag + ((sx - endPos.x).natAbs : Int) + ((sy - endPos.y).natAbs : Int)).fdiv 10

/-- Modelled from the spec: ModifiedAStar.direction_heuristic compares the
end direction enum against the integer curr_pos.direction.value, which
depends on the enum base class of the missing misc/direction.py; the spec
adopts the semantics zero when the headings are equal and ten otherwise,
which the degree values realise through value equality. -/
def directionHeuristic (endPos currPos : RobotPosition) : Int :=
  if endPos.direction.value = currPos.direction.value then 0 else 10

/-- Priority of a newly generated successor in
WeightedAStar.start_weighted_astar: the tentative cost plus the distance
and direction heuristics plus get_weight of the command. -/
def weightedSuccessorPriority (endPos : RobotPosition) (newCost : Int) (newPos : RobotPosition)
    (c : Command) : Int :=
  newCost + weightedDistanceHeuristic endPos newPos + directionHeuristic endPos newPos +
    weightedGetWeight c

/-- Relaxation step of WeightedAStar.start_weighted_astar for one
neighbour: the tentative cost is cost.get(current_node, 0) plus the
command weight of get_neighbours, and the successor is accepted when it
beats cost.get(new_node, INFINITY) with INFINITY = 100000.  The pair is
the acceptance decision and the tentative cost that would be stored. -/
def weightedRelaxDecision (cost : List (AStarNode × Int)) (currentNode newNode : AStarNode)
    (commandWeight : Int) : Bool × Int :=
  let newCost := (cost.lookup currentNode).getD 0 + commandWeight
  (decide (newCost < (cost.lookup newNode).getD 100000), newCost)

/-- Relaxation step of ModifiedAStar.start_astar for one neighbour: a
revisit penalty of 10 is added when the successor already appears in the
backtrack dictionary, before the comparison against
cost.get(new_node, 100000).  The source reads cost.get(current_node)
with no default; inside the loop the current node always carries a cost,
embedded here as a default of 0. -/
def modifiedRelaxDecision (cost : List (AStarNode × Int))
    (backtrack : List (AStarNode × (Option AStarNode × Option Command)))
    (currentNode newNode : AStarNode) (weight : Int) : Bool × Int :=
  let revisit : Int := if (backtrack.lookup newNode).isSome then 10 else 0
  let newCost := (cost.lookup currentNode).getD 0 + weight + revisit
  (decide (newCost < (cost.lookup newNode).getD 100000), newCost)

/-- Relaxation test as claim C4 words it: the successor replaces the
stored state iff g_new < g_old (g_old defaulting to the stored infinity),
with a revisit penalty of 10 added to g_new first whenever the successor
already appears in the came-from map. -/
def claimRelaxDecision (cost : List (AStarNode × Int))
    (backtrack : List (AStarNode × (Option AStarNode × Option Command)))
    (currentNode newNode : AStarNode) (weight : Int) : Bool :=
  let revisit : Int := if (backtrack.lookup newNode).isSome then 10 else 0
  decide ((cost.lookup currentNode).getD 0 + weight + revisit <
    (cost.lookup newNode).getD 100000)

/- Fallback loop of Hamiltonian._find_path_with_fallback. -/

/-- constants.MODIFIED_A_STAR. -/
def MODIFIED_A_STAR : Int := 0

/-- constants.WEIGHTED_A_STAR. -/
def WEIGHTED_A_STAR : Int := 1

/-- Hamiltonian.MAX_PATH_ATTEMPTS. -/
def MAX_PATH_ATTEMPTS : Nat := 3

/-- Algorithm order tried inside each attempt of
Hamiltonian._find_path_with_fallback: Weighted A* first, then Modified
A*. -/
def fallbackAlgorithms : List Int := [WEIGHTED_A_STAR, MODIFIED_A_STAR]

/-- Attempt schedule of Hamiltonian._find_path_with_fallback: for each
rerun counter 0, 1, 2 and each algorithm, one A* run constructed with
yolo := rerun. -/
def fallbackAttempts : List (Nat × Int) :=
  (List.range MAX_PATH_ATTEMPTS).flatMap (fun rerun =>
    fallbackAlgorithms.map (fun mode => (rerun, mode)))

/-- Shared shape of get_neighbours entries: straights carry edge weight
10, turns carry the turn penalty 50, or 0 under truthy yolo. -/
theorem getNeighbours_weight (g : Grid) (yolo : Nat) (pos : RobotPosition)
    (n : AStarNode) (np : RobotPosition) (w : Int) (c : Command)
    (hmem : (n, np, w, c) ∈ getNeighbours g yolo pos) :
    (isStraightB c = true ∧ w = 10) ∨
      (isStraightB c = false ∧ w = (if pyTruthy yolo then 0 else 50)) := by
  simp only [getNeighbours, List.mem_append, List.mem_filterMap, List.mem_cons,
    List.not_mem_nil, or_false, Option.map_eq_some'] at hmem
  rcases hmem with ⟨a, ha, res, _, heq⟩ | ⟨a, ha, res, _, heq⟩
  · left
    simp only [Prod.mk.injEq] at heq
    obtain ⟨-, -, hw, hc⟩ := heq
    rcases ha with rfl | rfl <;> subst hc <;> exact ⟨rfl, hw.symm⟩
  · right
    simp only [Prod.mk.injEq] at heq
    obtain ⟨-, -, hw, hc⟩ := heq
    have hpen : (if !(pyTruthy yolo) then (50 : Int) else 0) =
        (if pyTruthy yolo then (0 : Int) else 50) := by
      cases h : pyTruthy yolo <;> simp [h]
    rcases ha with rfl | rfl | rfl | rfl <;> subst hc <;>
      exact ⟨rfl, hw.symm.trans hpen⟩

/-- Claim C3 counterexample: on the empty grid the straight successor of
(100,100,E) is generated with edge cost 10 added to g, while the claimed
weight w(Straight) is 0. -/
theorem C3_counterexample :
    ((110, 100, Direction.RIGHT),
        ({ x := 110, y := 100, direction := .RIGHT } : RobotPosition),
        (10 : Int), Command.straight 10) ∈ getNeighbours ⟨[]⟩ 0 ⟨100, 100, .RIGHT⟩ ∧
      weightedGetWeight (Command.straight 10) = 0 ∧ (10 : Int) ≠ 0 := by
  exact ⟨by decide, rfl, by decide⟩

/-- Claim C3 as amended: the edge cost added to the tentative g of a
successor is 10 for a straight and 50 for a medium turn (0 when yolo is
truthy); the weights w(Straight) = 0 and w(TurnMedium) = 20 enter only
once, at the priority stage, where the priority of a new successor is
g_new + distance heuristic + direction heuristic + w(c). -/
theorem C3_weighted_costs (g : Grid) (yolo : Nat) (pos endPos np : RobotPosition)
    (n : AStarNode) (w newCost : Int) (c : Command)
    (hmem : (n, np, w, c) ∈ getNeighbours g yolo pos) :
    (isStraightB c = true → w = 10) ∧
      (isStraightB c = false → w = (if pyTruthy yolo then 0 else 50)) ∧
      weightedSuccessorPriority endPos newCost np c =
        newCost + weightedDistanceHeuristic endPos np + directionHeuristic endPos np +
          weightedGetWeight c ∧
      weightedGetWeight (.straight 10) = 0 ∧
      weightedGetWeight (.turn .MEDIUM true false false) = 20 := by
  rcases getNeighbours_weight g yolo pos n np w c hmem with ⟨hs, hw⟩ | ⟨hs, hw⟩
  · exact ⟨fun _ => hw, fun h => absurd hs (by simp [h]), rfl, rfl, rfl⟩
  · exact ⟨fun h => absurd hs (by simp [h]), fun _ => hw, rfl, rfl, rfl⟩

/-- Witness for C3 as amended at the straight successor of the
counterexample. -/
theorem C3_weighted_costs_witness :
    (((110, 100, Direction.RIGHT),
        ({ x := 110, y := 100, direction := .RIGHT } : RobotPosition),
        (10 : Int), Command.straight 10) ∈ getNeighbours ⟨[]⟩ 0 ⟨100, 100, .RIGHT⟩) ∧
      (isStraightB (Command.straight 10) = true → (10 : Int) = 10) :=
  ⟨by decide,
    (C3_weighted_costs ⟨[]⟩ 0 ⟨100, 100, .RIGHT⟩ ⟨140, 100, .LEFT⟩
      ⟨110, 100, .RIGHT⟩ (110, 100, .RIGHT) 10 0 (.straight 10) (by decide)).1⟩

/-- Claim C4 counterexample: in the weighted variant a successor that
already appears in the came-from map is accepted with g_new = 10 against
g_old = 15, although the claimed revisit-penalised comparison 10+10 < 15
fails; the weighted relaxation has no revisit penalty. -/
theorem C4_counterexample :
    (weightedRelaxDecision [((10, 10, .TOP), 0), ((20, 10, .TOP), 15)]
        (10, 10, .TOP) (20, 10, .TOP) 10).1 = true ∧
      claimRelaxDecision [((10, 10, .TOP), 0), ((20, 10, .TOP), 15)]
        [((20, 10, .TOP), (some (10, 10, .TOP), some (.straight 10)))]
        (10, 10, .TOP) (20, 10, .TOP) 10 = false := by
  decide

/-- Claim C4 as amended: the modified A* relaxation accepts a successor
iff g_new with the revisit penalty of 10 beats the stored cost (default
100000), and stores that penalised g_new; the weighted A* relaxation has
no revisit penalty: it accepts iff the plain g_new beats the stored cost
and stores the plain g_new. -/
theorem C4_relaxation (cost : List (AStarNode × Int))
    (backtrack : List (AStarNode × (Option AStarNode × Option Command)))
    (cur new : AStarNode) (w : Int) :
    (modifiedRelaxDecision cost backtrack cur new w).1 =
        claimRelaxDecision cost backtrack cur new w ∧
      (weightedRelaxDecision cost cur new w).1 =
        decide ((cost.lookup cur).getD 0 + w < (cost.lookup new).getD 100000) ∧
      (modifiedRelaxDecision cost backtrack cur new w).2 =
        (cost.lookup cur).getD 0 + w +
          (if (backtrack.lookup new).isSome then 10 else 0) ∧
      (weightedRelaxDecision cost cur new w).2 = (cost.lookup cur).getD 0 + w :=
  ⟨rfl, rfl, by simp [modifiedRelaxDecision], rfl⟩

/-- Obstacle-independence of the validity predicate when obstacles are
ignored. -/
theorem checkValidPosition_ignores_obstacles (g : Grid) (p : Position) :
    g.checkValidPosition p true = Grid.checkValidPosition ⟨[]⟩ p true := by
  simp [Grid.checkValidPosition, Grid.isValidPosition, Grid.isWithinBoundaries]

/-- Claim C10: the fallback loop passes the rerun counter 0, 1, 2 to the
A* constructors as the yolo flag (Weighted A* before Modified A* inside
each attempt); under truthy yolo turn edges cost 0 instead of 50, the
post-turn pose and all swept-arc samples are validated with
ignore_obstacles, so a retried turn may cross an obstacle safety zone,
while the final destination check of each command still includes
obstacles. -/
theorem C10_yolo_retries (g : Grid) (yolo : Nat) (c cc : Command)
    (p pos np : RobotPosition) (n : AStarNode) (w : Int)
    (hy : pyTruthy yolo = true)
    (hmem : (n, np, w, cc) ∈ getNeighbours g yolo pos) :
    fallbackAttempts = [(0, WEIGHTED_A_STAR), (0, MODIFIED_A_STAR), (1, WEIGHTED_A_STAR),
        (1, MODIFIED_A_STAR), (2, WEIGHTED_A_STAR), (2, MODIFIED_A_STAR)] ∧
      (isStraightB cc = false → w = 0) ∧
      turnChecksOk g yolo c p = turnChecksOk ⟨[]⟩ yolo c p ∧
      (checkValidCommand g yolo c p ≠ none →
        g.checkValidPosition ((c.applyOnPos p).pos) false = true) ∧
      (checkValidCommand ⟨[⟨120, 110, .TOP, 1⟩]⟩ 0 (.turn .MEDIUM true false false)
          ⟨100, 100, .TOP⟩ = none ∧
        (checkValidCommand ⟨[⟨120, 110, .TOP, 1⟩]⟩ 1 (.turn .MEDIUM true false false)
          ⟨100, 100, .TOP⟩).isSome = true) := by
  refine ⟨by decide, ?_, ?_, ?_, by decide⟩
  · intro hcc
    rcases getNeighbours_weight g yolo pos n np w cc hmem with ⟨hs, _⟩ | ⟨_, hw⟩
    · rw [hcc] at hs
      exact absurd hs (by simp)
    · rw [hw, hy]
      rfl
  · cases c with
    | turn t l r rev =>
      simp only [turnChecksOk, hy, checkValidPosition_ignores_obstacles]
    | straight d => rfl
    | scan i => rfl
  · intro hsome
    unfold checkValidCommand at hsome
    by_cases h1 : turnChecksOk g yolo c p
    · rw [if_pos h1] at hsome
      by_cases h2 : g.checkValidPosition ((c.applyOnPos p).pos) false
      · exact h2
      · rw [if_neg (by simpa using h2)] at hsome
        exact absurd rfl hsome
    · rw [if_neg (by simpa using h1)] at hsome
      exact absurd rfl hsome

/-- Witness for C10 at a medium turn successor generated under yolo = 1
on the empty grid: its edge weight is 0. -/
theorem C10_yolo_retries_witness :
    (pyTruthy 1 = true ∧
      ((120, 130, Direction.TOP),
        ({ x := 120, y := 130, direction := .TOP } : RobotPosition), (0 : Int),
        Command.turn .MEDIUM true false false) ∈ getNeighbours ⟨[]⟩ 1 ⟨100, 100, .RIGHT⟩) ∧
      (isStraightB (Command.turn .MEDIUM true false false) = false → (0 : Int) = 0) :=
  ⟨⟨rfl, by decide⟩,
    (C10_yolo_retries ⟨[]⟩ 1 (.turn .MEDIUM true false false) (.turn .MEDIUM true false false)
      ⟨100, 100, .TOP⟩ ⟨100, 100, .RIGHT⟩ ⟨120, 130, .TOP⟩ (120, 130, .TOP) 0 rfl
      (by decide)).2.1⟩

end MDP
